import Mathlib

/-!
# Verification of the UltraGrid video reception/decoding pipeline

Shallow embedding of the relevant parts of
`src/rtp/video_decoders.cpp`, `src/video_decompress/libavcodec.c` and
`src/video.cpp`, plus theorems settling the frozen claims C1..C10.

Machine integers are modelled as `Int`/`Nat`; the C bit mask `x & 0x3fffff`
on non-negative values is written `x % 4194304` (= `x % 2^22`, identical on
the values that arise), and the C `%` on non-negative operands coincides
with `Int.emod` as used here.  `double` bytes-per-pixel values are modelled
as exact rationals (`ℚ`); C truncating casts `(int)` on the non-negative
quantities involved are `Int.floor`.
-/

namespace UltraGrid

/-- FEC algorithm type (enum `fec_type`, values used by the decoder). -/
inductive fec_type_t where
  | FEC_NONE
  | FEC_MULT
  | FEC_LDGM
  | FEC_RS
deriving DecidableEq, Repr

open fec_type_t

/-- `struct fec_desc` — `(type, k, m, c, seed)` (from `rtp/fec.h` usage in
`video_decoders.cpp`; the fields compared/stored by the decoder). -/
structure fec_desc where
  type : fec_type_t
  k : Int
  m : Int
  c : Int
  seed : Int
deriving DecidableEq, Repr

/-! ## C1 / C10: the `missing` statistics update at the tail of
`decode_video_frame` (video_decoders.cpp:1671-1682).

```
if (decoder->last_buffer_number != -1) {
        long int missing = buffer_number -
                ((decoder->last_buffer_number + 1) & 0x3fffff);
        missing = (missing + 0x3fffff) % 0x3fffff;
        if (missing < 0x3fffff / 2) {
                decoder->stats.missing += missing;
        } else { // frames may have been reordered, add arbitrary 1
                decoder->stats.missing += 1;
        }
}
decoder->last_buffer_number = buffer_number;
```
-/

/-- The amount added to `stats.missing` by the tail of `decode_video_frame`,
given `last_buffer_number` (≥ 0 here; the `-1` initial case adds nothing and
is handled by the caller model) and the `buffer_number` of the last parsed
packet.  Direct translation of video_decoders.cpp:1672-1680; the bit mask
`& 0x3fffff` is `% 4194304` (operand is non-negative). -/
def missing_increment (last_buffer_number : Int) (buffer_number : Int) : Int :=
  let missing := buffer_number - ((last_buffer_number + 1) % 4194304)
  let missing := (missing + 0x3fffff) % 0x3fffff
  if missing < 0x3fffff / 2 then missing else 1

/-- The increment as the claim words it: the modular distance
`(buffer_number - (last_buffer_number + 1)) mod 2^22` when that distance is
at most `2^21`, and `1` otherwise.  (Spec-side definition, for comparison
with `missing_increment`.) -/
def claimed_missing_increment (last_buffer_number : Int) (buffer_number : Int) : Int :=
  let d := (buffer_number - (last_buffer_number + 1)) % 4194304
  if d ≤ 2097152 then d else 1

/-- The increment as amended: distance taken modulo `2^22 - 1 = 4194303`
(of the difference to the 22-bit wrap of `last+1`), counted when strictly
below `⌊(2^22-1)/2⌋ = 2097151`, else `1`. -/
def amended_missing_increment (last_buffer_number : Int) (buffer_number : Int) : Int :=
  let d := (buffer_number - ((last_buffer_number + 1) % 4194304)) % 4194303
  if d < 2097151 then d else 1

/-! ## Common data model -/

/-- Video codec identifiers (`codec_t`); the constructors named here are the
ones the embedded code branches on, `OTHER` stands for any further codec. -/
inductive codec_t where
  | VIDEO_CODEC_NONE
  | RGBA
  | RGB
  | UYVY
  | v210
  | DXT1
  | DXT1_YUV
  | DXT5
  | H264
  | MJPG
  | JPEG
  | VP8
  | OTHER (n : Nat)
deriving DecidableEq, Repr

/-- `enum video_mode` (from `video.h` / `video.cpp`). -/
inductive video_mode_t where
  | VIDEO_UNKNOWN
  | VIDEO_NORMAL
  | VIDEO_DUAL
  | VIDEO_STEREO
  | VIDEO_4K
  | VIDEO_3X1
deriving DecidableEq, Repr

open video_mode_t

/-- `guess_video_mode` (video.cpp:119-135). -/
def guess_video_mode (num_substreams : Nat) : video_mode_t :=
  match num_substreams with
  | 1 => VIDEO_NORMAL
  | 2 => VIDEO_STEREO
  | 3 => VIDEO_3X1
  | 4 => VIDEO_4K
  | _ => VIDEO_UNKNOWN

/-- `enum decoder_type_t` (video_decoders.cpp:155-160). -/
inductive decoder_type_t where
  | UNSET
  | LINE_DECODER
  | EXTERNAL_DECODER
deriving DecidableEq, Repr

open decoder_type_t

/-- A tile of a `video_frame`: `data` models the data pointer as an identity
token (`none` = NULL, as left by `vf_alloc`), `data_len` the byte length. -/
structure tile where
  data : Option Nat := none
  data_len : Int := 0
deriving DecidableEq, Repr, Inhabited

/-- The parts of `struct video_frame` the decoder reads: its tiles and the
`fec_params` attached by the receiver. -/
structure video_frame where
  tiles : List tile
  fec_params : fec_desc
deriving DecidableEq, Repr

/-- A `map<int, int>` from packet offset to byte length, as an association
list; `map_insert` is `m[key] = value` (overwrite or insert). -/
def map_insert : List (Nat × Int) → Nat → Int → List (Nat × Int)
  | [], k, v => [(k, v)]
  | (k', v') :: rest, k, v =>
      if k = k' then (k, v) :: rest else (k', v') :: map_insert rest k v

/-- `sum_map` (video_decoders.cpp:136-143): sum of the map's values. -/
def sum_map (m : List (Nat × Int)) : Int := (m.map Prod.snd).sum

/-- Modelled from the spec: `vf_get_data_len` (defined in `video_frame.c`,
which is not part of the sources) — the frame's declared data length, the
sum of its tiles' `data_len` (spec §3: a frame is a set of tiles, each
carrying `data_len`). -/
def vf_get_data_len (f : video_frame) : Int := (f.tiles.map tile.data_len).sum

/-! ## C3: statistics folding in `frame_msg::~frame_msg`
(video_decoders.cpp:208-249). -/

/-- `struct reported_statistics_cumul` (video_decoders.cpp:176-199),
counters only. -/
structure reported_statistics_cumul where
  received_bytes_total : Int := 0
  expected_bytes_total : Int := 0
  displayed : Int := 0
  dropped : Int := 0
  corrupted : Int := 0
  missing : Int := 0
  fec_ok : Int := 0
  fec_corrected : Int := 0
  fec_nok : Int := 0
  nano_per_frame_decompress : Int := 0
  nano_per_frame_error_correction : Int := 0
  nano_per_frame_expected : Int := 0
  reported_frames : Int := 0
deriving DecidableEq, Repr

/-- `struct frame_msg` (video_decoders.cpp:202-262), the fields read by its
destructor.  (`control` and the queues are outside this model.) -/
structure frame_msg where
  recv_frame : Option video_frame
  pckt_list : List (List (Nat × Int))
  nanoPerFrameDecompress : Int := 0
  nanoPerFrameErrorCorrection : Int := 0
  nanoPerFrameExpected : Int := 0
  is_displayed : Bool := false
  is_corrupted : Bool := false
deriving DecidableEq, Repr

/-- The statistics update performed by `frame_msg::~frame_msg`
(video_decoders.cpp:208-246): a no-op on a poison message, otherwise the
FEC-outcome counter selection followed by the cumulative tallies of the
status line. -/
def frame_msg_dtor (msg : frame_msg) (stats : reported_statistics_cumul) :
    reported_statistics_cumul :=
  match msg.recv_frame with
  | none => stats
  | some f =>
    let received_bytes : Int := ((msg.pckt_list.take f.tiles.length).map sum_map).sum
    let expected_bytes : Int := vf_get_data_len f
    let stats :=
      if f.fec_params.type ≠ FEC_NONE then
        if msg.is_corrupted then { stats with fec_nok := stats.fec_nok + 1 }
        else if received_bytes = expected_bytes then { stats with fec_ok := stats.fec_ok + 1 }
        else { stats with fec_corrected := stats.fec_corrected + 1 }
      else stats
    { stats with
      expected_bytes_total := stats.expected_bytes_total + expected_bytes
      received_bytes_total := stats.received_bytes_total + received_bytes
      corrupted := stats.corrupted + (if msg.is_corrupted then 1 else 0)
      displayed := stats.displayed + (if msg.is_displayed then 1 else 0)
      nano_per_frame_decompress := stats.nano_per_frame_decompress + msg.nanoPerFrameDecompress
      nano_per_frame_error_correction :=
        stats.nano_per_frame_error_correction + msg.nanoPerFrameErrorCorrection
      nano_per_frame_expected := stats.nano_per_frame_expected + msg.nanoPerFrameExpected
      reported_frames := stats.reported_frames + 1 }

/-- A concrete received frame for exercising the destructor: one tile of
declared length 10, LDGM FEC parameters. -/
def sample_ldgm_frame : video_frame := ⟨[⟨some 1, 10⟩], ⟨FEC_LDGM, 5, 3, 3, 1⟩⟩

/-- A concrete uncorrupted frame message over `sample_ldgm_frame` whose
packet map records 4 of the 10 declared bytes. -/
def sample_ldgm_msg : frame_msg :=
  { recv_frame := some sample_ldgm_frame, pckt_list := [[(0, 4)]] }

/-! ## C7: the no-FEC branch of `fec_thread` (video_decoders.cpp:486-503).

```
for(int i = 0; i < (int) decoder->max_substreams; ++i) {
        data->nofec_frame->tiles[i].data_len = data->recv_frame->tiles[i].data_len;
        data->nofec_frame->tiles[i].data = data->recv_frame->tiles[i].data;
        if (data->recv_frame->tiles[i].data_len != (unsigned int) sum_map(data->pckt_list[i])) {
                ... data->is_corrupted = true;
                if(decoder->decoder_type == EXTERNAL_DECODER && !decoder->accepts_corrupted_frame) {
                        goto cleanup;       // message is not pushed to decompress_queue
                }
        }
}
```
-/

/-- Result of the no-FEC tile pass: the `nofec_frame` tiles, the message's
corruption flag, and whether the message was dropped (`goto cleanup`, so
never pushed onto the decompress queue). -/
structure nofec_result where
  tiles : List tile
  is_corrupted : Bool
  dropped : Bool
deriving DecidableEq, Repr

/-- The no-FEC branch of `fec_thread`, iterating over the received tiles
paired with their per-tile packet maps (the C `for` loop over
`max_substreams` rendered as list recursion; on `goto cleanup` the
remaining `nofec_frame` tiles keep their `vf_alloc` defaults). -/
def fec_none_tiles (external_decoder accepts_corrupted : Bool) :
    List (tile × List (Nat × Int)) → Bool → nofec_result
  | [], corrupted => ⟨[], corrupted, false⟩
  | (t, pl) :: rest, corrupted =>
    let nt : tile := ⟨t.data, t.data_len⟩
    if t.data_len ≠ sum_map pl then
      if external_decoder && !accepts_corrupted then
        ⟨nt :: rest.map (fun _ => (default : tile)), true, true⟩
      else
        let r := fec_none_tiles external_decoder accepts_corrupted rest true
        ⟨nt :: r.tiles, r.is_corrupted, r.dropped⟩
    else
      let r := fec_none_tiles external_decoder accepts_corrupted rest corrupted
      ⟨nt :: r.tiles, r.is_corrupted, r.dropped⟩

/-- A concrete no-FEC input: tile 0 declares 5 bytes but its packet map
records 7 (more than declared, not less), tile 1 is complete. -/
def c7_input : List (tile × List (Nat × Int)) :=
  [(⟨some 100, 5⟩, [(0, 7)]), (⟨some 101, 4⟩, [(0, 4)])]

/-! ## C4: `choose_codec_and_decoder` (video_decoders.cpp:881-973).

The display's native codec list is tried in four phases (identity, fast
line decoder, slow line decoder, external decompressor); the registry
`get_decoder_from_to` and `decompress_init_multi` are external modules and
enter the model as function parameters. -/

/-- A line-decoding function value, identified by where
`choose_codec_and_decoder` obtains it: `memcpy`, one of the two RGB(A)
copy routines, or a registry entry for a `(source, destination)` pair. -/
inductive decoder_fn where
  | memcpy_fn
  | vc_copylineRGBA
  | vc_copylineRGB
  | registry (src dst : codec_t) (slow : Bool)
deriving DecidableEq, Repr

/-- The DXT identity exception (video_decoders.cpp:893-896): identity on
DXT1 / DXT1_YUV / DXT5 is skipped when the video mode is not
`VIDEO_NORMAL`. -/
def dxt_exception (out_codec : codec_t) (video_mode : video_mode_t) : Bool :=
  (out_codec == codec_t.DXT1 || out_codec == codec_t.DXT1_YUV ||
    out_codec == codec_t.DXT5) && video_mode != VIDEO_NORMAL

/-- Outcome of `choose_codec_and_decoder`: the chosen output codec, the
decoder type that was set, and the line-decode function (if any). -/
structure choose_result where
  out_codec : codec_t
  decoder_type : decoder_type_t
  decode_line : Option decoder_fn
deriving DecidableEq, Repr

/-- `choose_codec_and_decoder` (video_decoders.cpp:881-973).  `native` is
`decoder->native_codecs[0..native_count)`, `reg src dst slow` tells whether
`get_decoder_from_to(src, dst, slow)` finds a function, `ext_ok src dst`
whether `decompress_init_multi(src, dst, ..)` succeeds.  The four `goto`
phases of the source become a first-match cascade. -/
def choose_codec_and_decoder (native : List codec_t) (video_mode : video_mode_t)
    (reg : codec_t → codec_t → Bool → Bool) (ext_ok : codec_t → codec_t → Bool)
    (color_spec : codec_t) : choose_result :=
  match native.find? (fun oc => color_spec == oc && !(dxt_exception oc video_mode)) with
  | some oc =>
      let dl := if color_spec == codec_t.RGBA then decoder_fn.vc_copylineRGBA
        else if color_spec == codec_t.RGB then decoder_fn.vc_copylineRGB
        else decoder_fn.memcpy_fn
      ⟨oc, LINE_DECODER, some dl⟩
  | none =>
    match native.find? (fun nc => reg color_spec nc false) with
    | some nc => ⟨nc, LINE_DECODER, some (decoder_fn.registry color_spec nc false)⟩
    | none =>
      match native.find? (fun nc => reg color_spec nc true) with
      | some nc => ⟨nc, LINE_DECODER, some (decoder_fn.registry color_spec nc true)⟩
      | none =>
        match native.find? (fun nc => ext_ok color_spec nc) with
        | some nc => ⟨nc, EXTERNAL_DECODER, none⟩
        | none => ⟨codec_t.VIDEO_CODEC_NONE, UNSET, none⟩

/-! ## C5 / C6: the receiver's line-decoder write loop
(video_decoders.cpp:1540-1610).

`src_bpp` and `dst_bpp` are C `double`s holding (possibly fractional)
bytes-per-pixel ratios; they are modelled as exact rationals, and the
C truncating conversions `(int)` (applied to non-negative quantities
here) are `Int.floor`. -/

/-- `struct line_decoder` (video_decoders.cpp:165-174), without the
function pointer and RGB shifts (which do not influence addressing). -/
structure line_decoder where
  base_offset : Int
  src_bpp : ℚ
  dst_bpp : ℚ
  dst_linesize : Int
  dst_pitch : Int
  src_linesize : Int
deriving DecidableEq, Repr

/-- One call of `line_decoder->decode_line` issued by the receiver loop:
the destination byte offset within `tile->data` and the length argument. -/
structure decode_call where
  dst_off : Int
  len : Int
deriving DecidableEq, Repr

/-- Result of the packet write loop: the decode calls issued, the final
value of the `prints` counter, whether the overflow warning was logged,
and whether the tail of the payload was discarded. -/
structure line_loop_result where
  calls : List decode_call
  prints : Int
  warned : Bool
  discarded : Bool
deriving DecidableEq, Repr

/-- The converted length `int l = ((int)(len / src_bpp)) * dst_bpp`
(video_decoders.cpp:1568): both C conversions truncate non-negative
values, hence the floors. -/
def converted_len (src_bpp dst_bpp : ℚ) (len : Int) : Int :=
  ⌊((⌊(len : ℚ) / src_bpp⌋ : ℤ) : ℚ) * dst_bpp⌋

/-- The `while (len > 0)` loop of video_decoders.cpp:1564-1610, one fuel
unit per iteration (the loop consumes at least one byte of `len` per
iteration in every reachable configuration, so callers pass `len.toNat`
fuel).  State: remaining `len`, `s_x`, `d_x`, `y`, `prints`. -/
def line_decode_loop (ld : line_decoder) (tile_data_len : Int) :
    Nat → Int → Int → Int → Int → Int → line_loop_result
  | 0, _, _, _, _, prints => ⟨[], prints, false, false⟩
  | fuel + 1, len, s_x, d_x, y, prints =>
    if len > 0 then
      let l0 : Int := converted_len ld.src_bpp ld.dst_bpp len
      let l : Int := if l0 + d_x > ld.dst_linesize then ld.dst_linesize - d_x else l0
      let offset : Int := y + d_x
      if l + ld.base_offset + offset ≤ tile_data_len then
        let r := line_decode_loop ld tile_data_len fuel
          (len - (ld.src_linesize - s_x)) 0 0 (y + ld.dst_pitch) prints
        ⟨⟨ld.base_offset + offset, l⟩ :: r.calls, r.prints, r.warned, r.discarded⟩
      else
        let warn : Bool := prints % 100 == 0
        let r := line_decode_loop ld tile_data_len fuel 0 0 0 (y + ld.dst_pitch) (prints + 1)
        ⟨r.calls, r.prints, warn || r.warned, true⟩
    else ⟨[], prints, false, false⟩

/-- The initial horizontal destination offset
`int d_x = ((int)((s_x) / src_bpp)) * dst_bpp` (video_decoders.cpp:1555):
both C conversions truncate the non-negative quantities, hence floors. -/
def initial_d_x (ld : line_decoder) (s_x : Int) : Int :=
  ⌊((⌊(s_x : ℚ) / ld.src_bpp⌋ : ℤ) : ℚ) * ld.dst_bpp⌋

/-- Entry into the write loop for one packet (video_decoders.cpp:1544-1559):
initial `y`, `s_x`, `d_x` computed from `data_pos`, then the loop. -/
def line_decode_packet (ld : line_decoder) (tile_data_len : Int)
    (data_pos : Int) (len : Int) (prints : Int) : line_loop_result :=
  let y : Int := (data_pos / ld.src_linesize) * ld.dst_pitch
  let s_x : Int := data_pos % ld.src_linesize
  let d_x : Int := initial_d_x ld s_x
  line_decode_loop ld tile_data_len len.toNat len s_x d_x y prints

/-! ## C2: FEC codec recreation condition in `fec_thread`
(video_decoders.cpp:386-401).

```
if (data->recv_frame->fec_params.type != FEC_NONE) {
        if(!fec_state || desc.k != data->recv_frame->fec_params.k ||
                        desc.m != data->recv_frame->fec_params.m ||
                        desc.c != data->recv_frame->fec_params.c ||
                        desc.seed != data->recv_frame->fec_params.seed
          ) { ... delete fec_state; desc = ...; fec_state = fec::create_from_desc(desc); ... }
}
```
-/

/-- Whether `fec_thread` destroys and recreates its FEC state for an
incoming frame whose `fec_params.type != FEC_NONE`:  translation of the
condition at video_decoders.cpp:387-391.  `have_state` models
`fec_state != NULL`; `cur` models the thread-local `desc`. -/
def fec_recreate (have_state : Bool) (cur incoming : fec_desc) : Bool :=
  !have_state || cur.k != incoming.k || cur.m != incoming.m ||
    cur.c != incoming.c || cur.seed != incoming.seed

/-- The recreation condition as the claim words it: recreate iff no state
yet, or the two descriptors are not the "same codec", same codec meaning
all fields `(type, k, m, c, seed)` equal. -/
def claimed_fec_recreate (have_state : Bool) (cur incoming : fec_desc) : Bool :=
  !have_state || cur != incoming

/-! ## C1 / C8 / C10: the per-buffer intake `decode_video_frame`
(video_decoders.cpp:1315-1685).

The model covers the control flow and bookkeeping of the packet loop and
the statistics tail; the pixel writes themselves (line-decoder dispatch,
`memcpy` into assembly buffers) are modelled separately by
`line_decode_loop` and do not influence the modelled state.  The runs
modelled here have a stable video format: `check_for_mode_change`
(video_decoders.cpp:1294-1301) finds no format difference and is the
identity, and `decoder->frame` stays constant (`frame_present`).
`RECONFIGURE_IN_FUTURE_THREAD` is not defined in the build modelled. -/

/-- RTP payload types for video, as classified by the `switch (pt)` of
video_decoders.cpp:1426-1456. -/
inductive pt_t where
  | PT_VIDEO
  | PT_VIDEO_RS
  | PT_VIDEO_LDGM
  | PT_ENCRYPT_VIDEO
  | PT_ENCRYPT_VIDEO_RS
  | PT_ENCRYPT_VIDEO_LDGM
  | PT_UNKNOWN (n : Nat)
deriving DecidableEq, Repr

open pt_t

/-- Modelled from the spec: the `PT_VIDEO_HAS_FEC` macro (`rtp_callback.h`,
not part of the sources) — spec §4.1: the FEC-carrying payload types are
video-RS / video-LDGM and their encrypted variants. -/
def PT_VIDEO_HAS_FEC (pt : pt_t) : Bool :=
  match pt with
  | PT_VIDEO_RS | PT_VIDEO_LDGM | PT_ENCRYPT_VIDEO_RS | PT_ENCRYPT_VIDEO_LDGM => true
  | _ => false

/-- Modelled from the spec: the `PT_VIDEO_IS_ENCRYPTED` macro
(`rtp_callback.h`, not part of the sources) — spec §4.1: the encrypted
payload types are encrypted-video and encrypted-video-RS/LDGM. -/
def PT_VIDEO_IS_ENCRYPTED (pt : pt_t) : Bool :=
  match pt with
  | PT_ENCRYPT_VIDEO | PT_ENCRYPT_VIDEO_RS | PT_ENCRYPT_VIDEO_LDGM => true
  | _ => false

/-- Modelled from the spec: `MODE_AES128_NONE = 0` and the largest valid
cipher mode `MODE_AES128_MAX` (`crypto/openssl_encrypt.h`, not part of the
sources) — spec §4.1: valid modes are ECB / CTR / CFB / CBC after the
`none` value, so four valid nonzero modes. -/
def MODE_AES128_NONE : Nat := 0

/-- See `MODE_AES128_NONE`. -/
def MODE_AES128_MAX : Nat := 4

/-- One RTP packet of the buffer as `decode_video_frame` reads it.
`hdr0` is `ntohl(hdr[0])` (the packed `substream:10 | buffer_number:22`
word), `data_pos` is `ntohl(hdr[1])`, `buffer_length` is `ntohl(hdr[2])`.
`plain_len` is the payload length the `switch (pt)` computes from
`pckt->data_len` minus the header sizes; `decrypt_len` is the length the
external `dec_funcs->decrypt` call returns (0 = CRC/authentication
failure), read only for encrypted payload types. -/
structure packet where
  pt : pt_t
  hdr0 : Nat
  data_pos : Nat
  buffer_length : Int
  plain_len : Int
  crypto_mode : Nat := 0
  decrypt_len : Int := 0
deriving DecidableEq, Repr

/-- `substream = tmp >> 22` (video_decoders.cpp:1401). -/
def packet.substream (p : packet) : Nat := p.hdr0 / 2 ^ 22

/-- `buffer_number = tmp & 0x3fffff` (video_decoders.cpp:1402); the mask
is `% 2^22` on the non-negative `tmp`. -/
def packet.buffer_number (p : packet) : Nat := p.hdr0 % 2 ^ 22

/-- Decoder-state configuration relevant to one `decode_video_frame`
call, constant across the call in the modelled (format-stable) runs. -/
structure rx_config where
  max_substreams : Nat
  has_decrypt : Bool
  display_present : Bool
  frame_present : Bool
  decoder_type : decoder_type_t
deriving DecidableEq, Repr

/-- The per-call assembly state built by the packet loop: `buffer_num`,
the tiles' `data_len`, and the per-substream packet-offset maps
(`pckt_list`), each of length `max_substreams`. -/
structure rx_buffers where
  buffer_num : List Nat
  tile_data_len : List Int
  pckt_list : List (List (Nat × Int))
deriving DecidableEq, Repr

/-- `vf_alloc(max_substreams)`-fresh assembly state. -/
def rx_buffers.init (n : Nat) : rx_buffers :=
  ⟨List.replicate n 0, List.replicate n 0, List.replicate n []⟩

/-- Outcome of processing one packet: continue to the next packet with an
updated state, take an error path (`ret = FALSE; goto cleanup` — the
statistics tail still runs), or return `FALSE` directly from inside the
loop (video_decoders.cpp:1510-1513, skipping the statistics tail). -/
inductive step_out where
  | next (bufs : rx_buffers)
  | errorCleanup
  | returnFalse
deriving DecidableEq, Repr

/-- Processing of a single packet inside the `while (cdata != NULL)` loop
(video_decoders.cpp:1385-1618): encryption consistency check, payload-type
switch (with cipher-mode validation), substream range check (with
video-mode guess — either way `ret = FALSE; goto cleanup`), decryption
(zero length → `goto next_packet`, nothing recorded), the mid-loop display
frame check for non-FEC types, and the recording of `buffer_num`,
`tiles[substream].data_len` and `pckt_list[substream][data_pos]`. -/
def process_packet (cfg : rx_config) (bufs : rx_buffers) (p : packet) : step_out :=
  if PT_VIDEO_IS_ENCRYPTED p.pt && !cfg.has_decrypt then .errorCleanup
  else if !PT_VIDEO_IS_ENCRYPTED p.pt && cfg.has_decrypt then .errorCleanup
  else
    match p.pt with
    | PT_UNKNOWN _ => .errorCleanup
    | _ =>
      if PT_VIDEO_IS_ENCRYPTED p.pt &&
          (p.crypto_mode == MODE_AES128_NONE || p.crypto_mode > MODE_AES128_MAX) then
        .errorCleanup
      else if p.substream ≥ cfg.max_substreams then
        .errorCleanup
      else if PT_VIDEO_IS_ENCRYPTED p.pt && p.decrypt_len == 0 then
        .next bufs
      else
        let len : Int := if PT_VIDEO_IS_ENCRYPTED p.pt then p.decrypt_len else p.plain_len
        if !PT_VIDEO_HAS_FEC p.pt && !cfg.frame_present then .returnFalse
        else
          .next { bufs with
            buffer_num := bufs.buffer_num.set p.substream p.buffer_number
            tile_data_len := bufs.tile_data_len.set p.substream p.buffer_length
            pckt_list := bufs.pckt_list.set p.substream
              (map_insert (bufs.pckt_list.getD p.substream []) p.data_pos len) }

/-- Result of the packet loop: all packets processed (`done`, with the
`pt` / `buffer_number` loop variables of the last packet, `none` when no
packet was seen), an error path taken at some packet, or a direct
`return FALSE` from inside the loop. -/
inductive loop_out where
  | done (bufs : rx_buffers) (last : Option (pt_t × Nat))
  | error (last : pt_t × Nat)
  | ret_false (last : pt_t × Nat)
deriving DecidableEq, Repr

/-- The packet loop.  `pt` and `buffer_number` are assigned at the top of
each iteration (video_decoders.cpp:1397-1402), before any exit, so every
exit carries the values of the packet being processed. -/
def rx_loop (cfg : rx_config) : List packet → rx_buffers → Option (pt_t × Nat) → loop_out
  | [], bufs, last => .done bufs last
  | p :: rest, bufs, _ =>
    match process_packet cfg bufs p with
    | .next bufs' => rx_loop cfg rest bufs' (some (p.pt, p.buffer_number))
    | .errorCleanup => .error (p.pt, p.buffer_number)
    | .returnFalse => .ret_false (p.pt, p.buffer_number)

/-- Caller-visible statistics touched by the tail of
`decode_video_frame`: `decoder->stats.missing`,
`decoder->last_buffer_number`, `pbuf_data->decoded`,
`pbuf_data->max_frame_size`. -/
structure rx_stats where
  missing : Int
  last_buffer_number : Int
  decoded : Int
  max_frame_size : Int
deriving DecidableEq, Repr

/-- The unconditional tail after the `cleanup` label
(video_decoders.cpp:1668-1682): bump `max_frame_size` and `decoded`, add
the modular missing increment when a previous buffer was seen, and store
the current `buffer_number` as `last_buffer_number`. -/
def rx_tail_update (st : rx_stats) (buffer_number : Nat) (frame_size : Int) : rx_stats :=
  let st := { st with
    max_frame_size := max st.max_frame_size frame_size
    decoded := st.decoded + 1 }
  let st := if st.last_buffer_number ≠ -1 then
      { st with missing := st.missing + missing_increment st.last_buffer_number buffer_number }
    else st
  { st with last_buffer_number := (buffer_number : Int) }

/-- How a `decode_video_frame` call ended: accepted the buffer (`ok`,
returns TRUE), took an error path through `cleanup` (returns FALSE, tail
statistics updated), or returned FALSE before the tail. -/
inductive rx_exit where
  | ok
  | errorCleanup
  | earlyReturn
deriving DecidableEq, Repr

/-- Whole-call result: exit kind, final assembly state, the
`buffer_number` of the last parsed packet (0 when none was parsed), and
the caller-visible statistics. -/
structure rx_result where
  exit : rx_exit
  bufs : rx_buffers
  last_buffer_number : Nat
  stats : rx_stats
deriving DecidableEq, Repr

/-- `decode_video_frame` (video_decoders.cpp:1315-1685) over the modelled
state: the no-display early return, the packet loop, the `!pckt` check,
the end-of-loop display-frame check for non-FEC payload types, the frame
size summation of the success path, and the statistics tail (which runs
for every path that goes through `cleanup`, and only for those). -/
def decode_video_frame (cfg : rx_config) (pckts : List packet) (st : rx_stats) : rx_result :=
  if !cfg.display_present then
    ⟨.earlyReturn, rx_buffers.init cfg.max_substreams, 0, st⟩
  else
    match rx_loop cfg pckts (rx_buffers.init cfg.max_substreams) none with
    | .ret_false (_, bn) =>
        ⟨.earlyReturn, rx_buffers.init cfg.max_substreams, bn, st⟩
    | .done _ none =>
        ⟨.earlyReturn, rx_buffers.init cfg.max_substreams, 0, st⟩
    | .done bufs (some (pt, bn)) =>
        if !cfg.frame_present && (pt == PT_VIDEO || pt == PT_ENCRYPT_VIDEO) then
          ⟨.errorCleanup, bufs, bn, rx_tail_update st bn 0⟩
        else
          let frame_size : Int := bufs.tile_data_len.sum
          ⟨.ok, bufs, bn, rx_tail_update st bn frame_size⟩
    | .error (_, bn) =>
        ⟨.errorCleanup, rx_buffers.init cfg.max_substreams, bn, rx_tail_update st bn 0⟩

/-! ## C9: `libavcodec_decompress` (libavcodec.c:413-480).

The external `avcodec_decode_video2` calls are an oracle: one
`lavc_step` per loop iteration.  `change_pixfmt` (libavcodec.c:382-411)
depends only on the decoder's pixel format, constant within a call, so its
result enters as one Boolean.  The build modelled has neither
`LAVD_ACCEPT_CORRUPTED` nor `DISABLE_H264_INTRA_REFRESH` defined. -/

/-- One `avcodec_decode_video2` outcome: the returned length, the
`got_frame` flag, and the decoded picture's type. -/
structure lavc_step where
  len : Int
  got_frame : Bool
  pict_type_I : Bool := false
  pict_type_P : Bool := false
deriving DecidableEq, Repr

/-- The `while (s->pkt.size > 0)` loop of `libavcodec_decompress`
(libavcodec.c:423-477), carrying `pkt.size`, `last_frame_seq` and `res`.
An exhausted oracle with positive `pkt.size` falls out with the current
`res` (modelled runs supply one step per iteration). -/
def lavc_loop (in_codec : codec_t) (change_pixfmt_res : Bool) (frame_seq : Int) :
    List lavc_step → Int → Int → Bool → Bool
  | [], _, _, res => res
  | st :: rest, size, last_frame_seq, res =>
    if size > 0 then
      if st.len < 0 && (in_codec == codec_t.JPEG) then change_pixfmt_res
      else if st.len < 0 then false
      else if st.got_frame then
        if st.pict_type_I || in_codec == codec_t.H264 ||
            (st.pict_type_P && last_frame_seq == frame_seq - 1) then
          let res' := change_pixfmt_res
          let last' := if res' then frame_seq else last_frame_seq
          lavc_loop in_codec change_pixfmt_res frame_seq rest (size - st.len) last' res'
        else
          lavc_loop in_codec change_pixfmt_res frame_seq rest (size - st.len) last_frame_seq false
      else
        lavc_loop in_codec change_pixfmt_res frame_seq rest (size - st.len) last_frame_seq res
    else res

/-- `libavcodec_decompress` entry (libavcodec.c:413-422): `res = FALSE`,
`pkt.size = src_len`, then the loop. -/
def libavcodec_decompress (in_codec : codec_t) (change_pixfmt_res : Bool)
    (frame_seq : Int) (steps : List lavc_step) (src_len : Int)
    (last_frame_seq : Int) : Bool :=
  lavc_loop in_codec change_pixfmt_res frame_seq steps src_len last_frame_seq false

/-! ## Theorems -/

/-- The two missing-counter formulas — the source translation and the
amended spec formula — agree on all inputs. -/
theorem missing_increment_eq_amended (last b : Int) :
    missing_increment last b = amended_missing_increment last b := by
  simp only [missing_increment, amended_missing_increment, Int.add_emod_self]
  norm_num

/-- A finished packet loop reports the `(pt, buffer_number)` of the last
list element (or the inherited pair when the list is empty). -/
theorem rx_loop_done_last (cfg : rx_config) :
    ∀ (pckts : List packet) (bufs : rx_buffers) (last0 : Option (pt_t × Nat))
      (bufs' : rx_buffers) (last' : Option (pt_t × Nat)),
      rx_loop cfg pckts bufs last0 = loop_out.done bufs' last' →
      (pckts = [] ∧ last' = last0) ∨
        ∃ p, pckts.getLast? = some p ∧ last' = some (p.pt, p.buffer_number) := by
  intro pckts
  induction pckts with
  | nil =>
      intro bufs last0 bufs' last' h
      simp only [rx_loop, loop_out.done.injEq] at h
      exact Or.inl ⟨rfl, h.2.symm⟩
  | cons p rest ih =>
      intro bufs last0 bufs' last' h
      right
      simp only [rx_loop] at h
      cases hp : process_packet cfg bufs p with
      | next bufs2 =>
          rw [hp] at h
          rcases ih bufs2 (some (p.pt, p.buffer_number)) bufs' last' h with
            ⟨hnil, hl⟩ | ⟨q, hq, hl⟩
          · subst hnil
            exact ⟨p, by simp, by simp [hl]⟩
          · refine ⟨q, ?_, hl⟩
            cases rest with
            | nil => simp at hq
            | cons r rs => rw [List.getLast?_cons_cons]; exact hq
      | errorCleanup => rw [hp] at h; simp at h
      | returnFalse => rw [hp] at h; simp at h

/-- Any `decode_video_frame` call that does not return early runs the
statistics tail on the last parsed packet's `buffer_number` (with frame
size 0 unless the buffer was accepted), and an accepted buffer's
`buffer_number` is the last packet's. -/
theorem rx_call_tail (cfg : rx_config) (pckts : List packet) (st : rx_stats)
    (h : (decode_video_frame cfg pckts st).exit ≠ rx_exit.earlyReturn) :
    (decode_video_frame cfg pckts st).stats =
      rx_tail_update st (decode_video_frame cfg pckts st).last_buffer_number
        (if (decode_video_frame cfg pckts st).exit = rx_exit.ok
          then ((decode_video_frame cfg pckts st).bufs.tile_data_len).sum else 0) ∧
    ((decode_video_frame cfg pckts st).exit = rx_exit.ok →
      ∃ p, pckts.getLast? = some p ∧
        (decode_video_frame cfg pckts st).last_buffer_number = p.buffer_number) := by
  cases hd : cfg.display_present with
  | false => exact absurd (by simp [decode_video_frame, hd]) h
  | true =>
      cases hl : rx_loop cfg pckts (rx_buffers.init cfg.max_substreams) none with
      | ret_false pr => exact absurd (by simp [decode_video_frame, hd, hl]) h
      | error pr =>
          obtain ⟨pt, bn⟩ := pr
          constructor
          · simp [decode_video_frame, hd, hl]
          · intro hok
            exact absurd hok (by simp [decode_video_frame, hd, hl])
      | done bufs last =>
          cases last with
          | none => exact absurd (by simp [decode_video_frame, hd, hl]) h
          | some pr =>
              obtain ⟨pt, bn⟩ := pr
              by_cases hfc :
                  (!cfg.frame_present && (pt == PT_VIDEO || pt == PT_ENCRYPT_VIDEO)) = true
              · constructor
                · simp [decode_video_frame, hd, hl, hfc]
                · intro hok
                  exact absurd hok (by simp [decode_video_frame, hd, hl, hfc])
              · have hlast := rx_loop_done_last cfg pckts _ none bufs (some (pt, bn)) hl
                constructor
                · simp [decode_video_frame, hd, hl, hfc]
                · intro _
                  rcases hlast with ⟨_, hcontra⟩ | ⟨p, hp, heq⟩
                  · simp at hcontra
                  · simp only [Option.some.injEq, Prod.mk.injEq] at heq
                    exact ⟨p, hp, by simp [decode_video_frame, hd, hl, hfc, heq.2]⟩

/-- C1 (counterexample): with `last_buffer_number = 0` and an accepted
buffer numbered `2097152`, the code adds `1` to `missing`, while the
claim's modular distance `(2097152 - (0+1)) mod 2^22 = 2097151` is at most
`2^21`, so the claim demands an increase of `2097151`. -/
theorem C1_counterexample :
    (decode_video_frame ⟨1, false, true, true, EXTERNAL_DECODER⟩
        [⟨PT_VIDEO, 2097152, 0, 100, 50, 0, 0⟩] ⟨0, 0, 0, 0⟩).stats.missing = 0 + 1 ∧
    ((2097152 : Int) - (0 + 1)) % 4194304 ≤ 2097152 ∧
    ((2097152 : Int) - (0 + 1)) % 4194304 = 2097151 ∧
    claimed_missing_increment 0 2097152 = 2097151 := by decide

/-- C1 (amended): for every `decode_video_frame` call that reaches the
final statistics update (does not return early) while a previous buffer
was seen (`last_buffer_number != -1`), `missing` increases by the distance
`(buffer_number - ((last_buffer_number + 1) mod 2^22)) mod (2^22 - 1)`
when that distance is below `⌊(2^22-1)/2⌋ = 2097151`, and by exactly `1`
otherwise; for an accepted buffer, `buffer_number` is taken from the last
packet of the call. -/
theorem C1_missing_counter_amended (cfg : rx_config) (pckts : List packet) (st : rx_stats)
    (hlast : st.last_buffer_number ≠ -1)
    (hexit : (decode_video_frame cfg pckts st).exit ≠ rx_exit.earlyReturn) :
    (decode_video_frame cfg pckts st).stats.missing =
      st.missing + amended_missing_increment st.last_buffer_number
        ((decode_video_frame cfg pckts st).last_buffer_number : Int) ∧
    ((decode_video_frame cfg pckts st).exit = rx_exit.ok →
      ∃ p, pckts.getLast? = some p ∧
        (decode_video_frame cfg pckts st).last_buffer_number = p.buffer_number) := by
  obtain ⟨hstats, hok⟩ := rx_call_tail cfg pckts st hexit
  refine ⟨?_, hok⟩
  rw [hstats]
  simp [rx_tail_update, hlast, missing_increment_eq_amended]

/-- C1 (witness): instance of the amended theorem on a single accepted
plain-video packet numbered 7 after `last_buffer_number = 3`. -/
theorem C1_missing_counter_amended_witness :
    (decode_video_frame ⟨1, false, true, true, EXTERNAL_DECODER⟩
        [⟨PT_VIDEO, 7, 0, 100, 50, 0, 0⟩] ⟨0, 3, 0, 0⟩).stats.missing =
      (0 : Int) + amended_missing_increment 3
        ((decode_video_frame ⟨1, false, true, true, EXTERNAL_DECODER⟩
          [⟨PT_VIDEO, 7, 0, 100, 50, 0, 0⟩] ⟨0, 3, 0, 0⟩).last_buffer_number : Int) ∧
    ((decode_video_frame ⟨1, false, true, true, EXTERNAL_DECODER⟩
        [⟨PT_VIDEO, 7, 0, 100, 50, 0, 0⟩] ⟨0, 3, 0, 0⟩).exit = rx_exit.ok →
      ∃ p, [(⟨PT_VIDEO, 7, 0, 100, 50, 0, 0⟩ : packet)].getLast? = some p ∧
        (decode_video_frame ⟨1, false, true, true, EXTERNAL_DECODER⟩
          [⟨PT_VIDEO, 7, 0, 100, 50, 0, 0⟩] ⟨0, 3, 0, 0⟩).last_buffer_number = p.buffer_number) :=
  C1_missing_counter_amended ⟨1, false, true, true, EXTERNAL_DECODER⟩
    [⟨PT_VIDEO, 7, 0, 100, 50, 0, 0⟩] ⟨0, 3, 0, 0⟩ (by decide) (by decide)

/-- C2 (counterexample): with live FEC state for an LDGM descriptor, an
incoming Reed-Solomon descriptor with identical `(k, m, c, seed)` does
not trigger recreation, although the two descriptors differ in `type`
and are therefore not the "same codec" in the claim's sense. -/
theorem C2_counterexample :
    fec_recreate true ⟨FEC_LDGM, 10, 12, 6, 42⟩ ⟨FEC_RS, 10, 12, 6, 42⟩ = false ∧
    claimed_fec_recreate true ⟨FEC_LDGM, 10, 12, 6, 42⟩ ⟨FEC_RS, 10, 12, 6, 42⟩ = true := by
  decide

/-- C2 (amended): the FEC worker destroys and recreates its codec state
iff it has no state yet or any of `(k, m, c, seed)` differ between the
current and incoming descriptors; the `type` field is not compared. -/
theorem C2_fec_recreate_kmcs_only (have_state : Bool) (cur incoming : fec_desc) :
    (fec_recreate have_state cur incoming = true ↔
      have_state = false ∨
        ¬(cur.k = incoming.k ∧ cur.m = incoming.m ∧ cur.c = incoming.c ∧
          cur.seed = incoming.seed)) ∧
    ∀ t t', fec_recreate have_state { cur with type := t } incoming =
      fec_recreate have_state { cur with type := t' } incoming := by
  constructor
  · cases have_state
    · simp [fec_recreate]
    · simp [fec_recreate]
      tauto
  · intro t t'
    rfl

/-- Projections of the statistics tail: `decoded` is incremented,
`max_frame_size` maxed with the frame size, `last_buffer_number` stored,
and `missing` advanced exactly when a previous buffer was seen. -/
theorem rx_tail_update_spec (st : rx_stats) (bn : Nat) (fs : Int) :
    (rx_tail_update st bn fs).decoded = st.decoded + 1 ∧
    (rx_tail_update st bn fs).max_frame_size = max st.max_frame_size fs ∧
    (rx_tail_update st bn fs).last_buffer_number = (bn : Int) ∧
    (rx_tail_update st bn fs).missing =
      st.missing + (if st.last_buffer_number ≠ -1 then
        missing_increment st.last_buffer_number bn else 0) := by
  by_cases h : st.last_buffer_number ≠ -1 <;> simp [rx_tail_update, h]

/-- C10 (counterexample): a single plain-video packet processed while the
display frame is missing (`decoder->frame == NULL`, e.g. after a failed
reconfiguration) makes `decode_video_frame` return FALSE from inside the
packet loop with none of the statistics updated, although a packet header
was parsed. -/
theorem C10_counterexample :
    (decode_video_frame ⟨1, false, true, false, LINE_DECODER⟩
        [⟨PT_VIDEO, 5, 0, 100, 50, 0, 0⟩] ⟨0, 3, 7, 9⟩).exit = rx_exit.earlyReturn ∧
    (decode_video_frame ⟨1, false, true, false, LINE_DECODER⟩
        [⟨PT_VIDEO, 5, 0, 100, 50, 0, 0⟩] ⟨0, 3, 7, 9⟩).stats = ⟨0, 3, 7, 9⟩ ∧
    [(⟨PT_VIDEO, 5, 0, 100, 50, 0, 0⟩ : packet)] ≠ [] := by decide

/-- C10 (amended): every `decode_video_frame` call that does not return
early — in particular every error rejection through `cleanup` (unknown
payload type, encryption mismatch, unknown cipher mode, substream out of
range, display frame missing at the end) — updates `last_buffer_number`,
advances `missing` (when a previous buffer was seen), increments the
caller's decoded count and updates `max_frame_size` (with frame size 0 on
the error paths); the early returns — taken before any packet is parsed,
or from the mid-loop display-frame check of a non-FEC packet — leave all
of these untouched. -/
theorem C10_error_paths_update_stats (cfg : rx_config) (pckts : List packet)
    (st : rx_stats) :
    ((decode_video_frame cfg pckts st).exit = rx_exit.earlyReturn →
      (decode_video_frame cfg pckts st).stats = st) ∧
    ((decode_video_frame cfg pckts st).exit ≠ rx_exit.earlyReturn →
      (decode_video_frame cfg pckts st).stats.decoded = st.decoded + 1 ∧
      (decode_video_frame cfg pckts st).stats.last_buffer_number =
        ((decode_video_frame cfg pckts st).last_buffer_number : Int) ∧
      (decode_video_frame cfg pckts st).stats.missing =
        st.missing + (if st.last_buffer_number ≠ -1 then
          missing_increment st.last_buffer_number
            ((decode_video_frame cfg pckts st).last_buffer_number) else 0) ∧
      ((decode_video_frame cfg pckts st).exit = rx_exit.errorCleanup →
        (decode_video_frame cfg pckts st).stats.max_frame_size =
          max st.max_frame_size 0)) := by
  constructor
  · intro he
    cases hd : cfg.display_present with
    | false => simp [decode_video_frame, hd]
    | true =>
        cases hl : rx_loop cfg pckts (rx_buffers.init cfg.max_substreams) none with
        | ret_false pr => simp [decode_video_frame, hd, hl]
        | error pr => exact absurd he (by simp [decode_video_frame, hd, hl])
        | done bufs last =>
            cases last with
            | none => simp [decode_video_frame, hd, hl]
            | some pr =>
                obtain ⟨pt, bn⟩ := pr
                by_cases hfc :
                    (!cfg.frame_present && (pt == PT_VIDEO || pt == PT_ENCRYPT_VIDEO)) = true
                · exact absurd he (by simp [decode_video_frame, hd, hl, hfc])
                · exact absurd he (by simp [decode_video_frame, hd, hl, hfc])
  · intro hne
    obtain ⟨hstats, -⟩ := rx_call_tail cfg pckts st hne
    rw [hstats]
    obtain ⟨h1, h2, h3, h4⟩ := rx_tail_update_spec st
      (decode_video_frame cfg pckts st).last_buffer_number
      (if (decode_video_frame cfg pckts st).exit = rx_exit.ok
        then ((decode_video_frame cfg pckts st).bufs.tile_data_len).sum else 0)
    refine ⟨h1, h3, h4, fun herr => ?_⟩
    rw [h2, if_neg]
    simp [herr]

/-- C10 (witness): an unknown-payload-type packet is rejected through
`cleanup` and the statistics are updated: decoded count incremented,
`last_buffer_number` stored, `missing` advanced, `max_frame_size`
refreshed with frame size 0. -/
theorem C10_error_paths_update_stats_witness :
    ((decode_video_frame ⟨1, false, true, true, LINE_DECODER⟩
        [⟨PT_UNKNOWN 33, 5, 0, 100, 50, 0, 0⟩] ⟨0, 3, 7, 9⟩).exit = rx_exit.earlyReturn →
      (decode_video_frame ⟨1, false, true, true, LINE_DECODER⟩
        [⟨PT_UNKNOWN 33, 5, 0, 100, 50, 0, 0⟩] ⟨0, 3, 7, 9⟩).stats = ⟨0, 3, 7, 9⟩) ∧
    ((decode_video_frame ⟨1, false, true, true, LINE_DECODER⟩
        [⟨PT_UNKNOWN 33, 5, 0, 100, 50, 0, 0⟩] ⟨0, 3, 7, 9⟩).exit ≠ rx_exit.earlyReturn →
      (decode_video_frame ⟨1, false, true, true, LINE_DECODER⟩
        [⟨PT_UNKNOWN 33, 5, 0, 100, 50, 0, 0⟩] ⟨0, 3, 7, 9⟩).stats.decoded = 7 + 1 ∧
      (decode_video_frame ⟨1, false, true, true, LINE_DECODER⟩
        [⟨PT_UNKNOWN 33, 5, 0, 100, 50, 0, 0⟩] ⟨0, 3, 7, 9⟩).stats.last_buffer_number =
        ((decode_video_frame ⟨1, false, true, true, LINE_DECODER⟩
          [⟨PT_UNKNOWN 33, 5, 0, 100, 50, 0, 0⟩] ⟨0, 3, 7, 9⟩).last_buffer_number : Int) ∧
      (decode_video_frame ⟨1, false, true, true, LINE_DECODER⟩
        [⟨PT_UNKNOWN 33, 5, 0, 100, 50, 0, 0⟩] ⟨0, 3, 7, 9⟩).stats.missing =
        0 + (if (3 : Int) ≠ -1 then
          missing_increment 3
            ((decode_video_frame ⟨1, false, true, true, LINE_DECODER⟩
              [⟨PT_UNKNOWN 33, 5, 0, 100, 50, 0, 0⟩] ⟨0, 3, 7, 9⟩).last_buffer_number)
          else 0) ∧
      ((decode_video_frame ⟨1, false, true, true, LINE_DECODER⟩
          [⟨PT_UNKNOWN 33, 5, 0, 100, 50, 0, 0⟩] ⟨0, 3, 7, 9⟩).exit = rx_exit.errorCleanup →
        (decode_video_frame ⟨1, false, true, true, LINE_DECODER⟩
          [⟨PT_UNKNOWN 33, 5, 0, 100, 50, 0, 0⟩] ⟨0, 3, 7, 9⟩).stats.max_frame_size =
          max 9 0)) :=
  C10_error_paths_update_stats ⟨1, false, true, true, LINE_DECODER⟩
    [⟨PT_UNKNOWN 33, 5, 0, 100, 50, 0, 0⟩] ⟨0, 3, 7, 9⟩

/-- C3: destroying a `frame_msg` holding a received frame whose FEC type
is not `none` increments exactly one FEC-outcome counter: `fec_nok` when
the corruption flag is set, otherwise `fec_ok` when the bytes recorded in
the per-tile packet maps equal the frame's declared data length, and
`fec_corrected` otherwise. -/
theorem C3_fec_outcome_counters (msg : frame_msg) (stats : reported_statistics_cumul)
    (f : video_frame) (hf : msg.recv_frame = some f)
    (hfec : f.fec_params.type ≠ FEC_NONE) :
    ((frame_msg_dtor msg stats).fec_nok + (frame_msg_dtor msg stats).fec_ok +
        (frame_msg_dtor msg stats).fec_corrected =
      stats.fec_nok + stats.fec_ok + stats.fec_corrected + 1) ∧
    ((frame_msg_dtor msg stats).fec_nok = stats.fec_nok + 1 ↔ msg.is_corrupted = true) ∧
    ((frame_msg_dtor msg stats).fec_ok = stats.fec_ok + 1 ↔
      msg.is_corrupted = false ∧
        ((msg.pckt_list.take f.tiles.length).map sum_map).sum = vf_get_data_len f) ∧
    ((frame_msg_dtor msg stats).fec_corrected = stats.fec_corrected + 1 ↔
      msg.is_corrupted = false ∧
        ¬((msg.pckt_list.take f.tiles.length).map sum_map).sum = vf_get_data_len f) := by
  cases hc : msg.is_corrupted
  all_goals by_cases heq :
    ((msg.pckt_list.take f.tiles.length).map sum_map).sum = vf_get_data_len f
  all_goals simp only [List.map_take] at heq
  all_goals simp [frame_msg_dtor, hf, hfec, hc, heq]
  all_goals omega

/-- C3 (witness): an uncorrupted LDGM frame message whose packet maps cover
4 of the declared 10 bytes increments `fec_corrected` (and only it). -/
theorem C3_fec_outcome_counters_witness :
    ((frame_msg_dtor sample_ldgm_msg {}).fec_nok + (frame_msg_dtor sample_ldgm_msg {}).fec_ok +
        (frame_msg_dtor sample_ldgm_msg {}).fec_corrected =
      ({} : reported_statistics_cumul).fec_nok + ({} : reported_statistics_cumul).fec_ok +
        ({} : reported_statistics_cumul).fec_corrected + 1) ∧
    ((frame_msg_dtor sample_ldgm_msg {}).fec_nok =
        ({} : reported_statistics_cumul).fec_nok + 1 ↔
      sample_ldgm_msg.is_corrupted = true) ∧
    ((frame_msg_dtor sample_ldgm_msg {}).fec_ok =
        ({} : reported_statistics_cumul).fec_ok + 1 ↔
      sample_ldgm_msg.is_corrupted = false ∧
        ((sample_ldgm_msg.pckt_list.take sample_ldgm_frame.tiles.length).map sum_map).sum =
          vf_get_data_len sample_ldgm_frame) ∧
    ((frame_msg_dtor sample_ldgm_msg {}).fec_corrected =
        ({} : reported_statistics_cumul).fec_corrected + 1 ↔
      sample_ldgm_msg.is_corrupted = false ∧
        ¬((sample_ldgm_msg.pckt_list.take sample_ldgm_frame.tiles.length).map sum_map).sum =
          vf_get_data_len sample_ldgm_frame) :=
  C3_fec_outcome_counters sample_ldgm_msg {} sample_ldgm_frame rfl (by decide)

/-- C9: when `avcodec_decode_video2` reports a negative length in any
iteration of `libavcodec_decompress`, the function returns the result of
`change_pixfmt` on the current frame when the configured input codec is
JPEG, and FALSE for every other input codec. -/
theorem C9_jpeg_negative_len (in_codec : codec_t) (change_pixfmt_res : Bool)
    (frame_seq : Int) (st : lavc_step) (rest : List lavc_step)
    (size last_frame_seq : Int) (res : Bool)
    (hsize : size > 0) (hneg : st.len < 0) :
    lavc_loop in_codec change_pixfmt_res frame_seq (st :: rest) size last_frame_seq res =
      (if in_codec = codec_t.JPEG then change_pixfmt_res else false) ∧
    libavcodec_decompress in_codec change_pixfmt_res frame_seq (st :: rest) size
        last_frame_seq =
      (if in_codec = codec_t.JPEG then change_pixfmt_res else false) := by
  have h : lavc_loop in_codec change_pixfmt_res frame_seq (st :: rest) size last_frame_seq res =
      (if in_codec = codec_t.JPEG then change_pixfmt_res else false) := by
    rw [lavc_loop]
    by_cases hj : in_codec = codec_t.JPEG <;> simp [hsize, hneg, hj]
  have h' : lavc_loop in_codec change_pixfmt_res frame_seq (st :: rest) size last_frame_seq
      false = (if in_codec = codec_t.JPEG then change_pixfmt_res else false) := by
    rw [lavc_loop]
    by_cases hj : in_codec = codec_t.JPEG <;> simp [hsize, hneg, hj]
  exact ⟨h, h'⟩

/-- C9 (witness): a first-iteration decode error with JPEG input returns
the `change_pixfmt` result (`true` here). -/
theorem C9_jpeg_negative_len_witness :
    lavc_loop codec_t.JPEG true 7 [⟨-1, false, false, false⟩] 10 3 false =
      (if codec_t.JPEG = codec_t.JPEG then true else false) ∧
    libavcodec_decompress codec_t.JPEG true 7 [⟨-1, false, false, false⟩] 10 3 =
      (if codec_t.JPEG = codec_t.JPEG then true else false) :=
  C9_jpeg_negative_len codec_t.JPEG true 7 ⟨-1, false, false, false⟩ [] 10 3 false
    (by decide) (by decide)

/-- C8: a packet whose decryption yields length 0 (CRC/authentication
failure) is dropped alone: its processing records nothing in
`buffer_num`, the tile's `data_len` or the packet-offset map, the loop
continues with the remaining packets, and no error or early return is
taken for it. -/
theorem C8_decrypt_fail_drops_packet_only (cfg : rx_config) (bufs : rx_buffers)
    (p : packet)
    (henc : PT_VIDEO_IS_ENCRYPTED p.pt = true)
    (hdec : cfg.has_decrypt = true)
    (hmode0 : p.crypto_mode ≠ MODE_AES128_NONE)
    (hmode1 : ¬p.crypto_mode > MODE_AES128_MAX)
    (hsub : p.substream < cfg.max_substreams)
    (hfail : p.decrypt_len = 0) :
    process_packet cfg bufs p = step_out.next bufs ∧
    ∀ (rest : List packet) (last0 : Option (pt_t × Nat)),
      rx_loop cfg (p :: rest) bufs last0 =
        rx_loop cfg rest bufs (some (p.pt, p.buffer_number)) := by
  have hnm : ¬MODE_AES128_MAX < p.crypto_mode := hmode1
  have hns : ¬cfg.max_substreams ≤ p.substream := not_le.mpr hsub
  have hstep : process_packet cfg bufs p = step_out.next bufs := by
    cases hpt : p.pt <;> simp_all [process_packet, PT_VIDEO_IS_ENCRYPTED] <;>
      rw [if_neg (by omega), if_neg (by omega)]
  refine ⟨hstep, fun rest last0 => ?_⟩
  simp [rx_loop, hstep]

/-- C8 (witness): a PT_ENCRYPT_VIDEO packet with valid cipher mode whose
decrypt returns 0 is skipped with the assembly state unchanged. -/
theorem C8_decrypt_fail_drops_packet_only_witness :
    process_packet ⟨1, true, true, true, LINE_DECODER⟩ (rx_buffers.init 1)
        ⟨PT_ENCRYPT_VIDEO, 5, 0, 100, 50, 2, 0⟩ =
      step_out.next (rx_buffers.init 1) ∧
    ∀ (rest : List packet) (last0 : Option (pt_t × Nat)),
      rx_loop ⟨1, true, true, true, LINE_DECODER⟩
          (⟨PT_ENCRYPT_VIDEO, 5, 0, 100, 50, 2, 0⟩ :: rest) (rx_buffers.init 1) last0 =
        rx_loop ⟨1, true, true, true, LINE_DECODER⟩ rest (rx_buffers.init 1)
          (some ((⟨PT_ENCRYPT_VIDEO, 5, 0, 100, 50, 2, 0⟩ : packet).pt,
            (⟨PT_ENCRYPT_VIDEO, 5, 0, 100, 50, 2, 0⟩ : packet).buffer_number)) :=
  C8_decrypt_fail_drops_packet_only ⟨1, true, true, true, LINE_DECODER⟩ (rx_buffers.init 1)
    ⟨PT_ENCRYPT_VIDEO, 5, 0, 100, 50, 2, 0⟩ (by decide) (by decide) (by decide) (by decide)
    (by decide) (by decide)

/-- C7 (counterexample): with an external decoder that does not accept
corrupted frames, a first tile whose recorded bytes exceed (not
undershoot) its declared length makes the FEC stage drop the message —
although no tile has received bytes less than declared — and the second
nofec tile is left at its `vf_alloc` default instead of aliasing the
received tile. -/
theorem C7_counterexample :
    (fec_none_tiles true false c7_input false).dropped = true ∧
    ¬(∃ pr ∈ c7_input, sum_map pr.2 < pr.1.data_len) ∧
    (fec_none_tiles true false c7_input false).tiles.get? 1 ≠
      some ⟨some 101, 4⟩ := by decide

/-- A dropped no-FEC pass is exactly an incomplete tile under an external
decoder that rejects corrupted frames. -/
theorem fec_none_dropped_iff (ext_dec acc : Bool) :
    ∀ (inp : List (tile × List (Nat × Int))) (c0 : Bool),
      (fec_none_tiles ext_dec acc inp c0).dropped = true ↔
        ext_dec = true ∧ acc = false ∧ ∃ pr ∈ inp, pr.1.data_len ≠ sum_map pr.2 := by
  intro inp
  induction inp with
  | nil => intro c0; simp [fec_none_tiles]
  | cons hd rest ih =>
      intro c0
      obtain ⟨t, pl⟩ := hd
      by_cases hbad : t.data_len ≠ sum_map pl
      · by_cases hea : (ext_dec && !acc) = true
        · obtain ⟨he, ha⟩ : ext_dec = true ∧ acc = false := by simpa using hea
          simp [fec_none_tiles, hbad, hea, he, ha]
        · have := hea
          simp only [Bool.and_eq_true, Bool.not_eq_true', not_and] at this
          simp only [fec_none_tiles, if_pos hbad, if_neg hea]
          rw [ih true]
          constructor
          · rintro ⟨he, ha, hex⟩
            exact absurd ha (by simp [this he])
          · rintro ⟨he, ha, -⟩
            exact absurd ha (by simp [this he])
      · simp only [fec_none_tiles, if_neg hbad]
        rw [ih c0]
        push_neg at hbad
        simp [hbad]

/-- A non-dropped no-FEC pass aliases every tile and is corrupted exactly
when it started corrupted or some tile's bytes differ from declared. -/
theorem fec_none_not_dropped (ext_dec acc : Bool) :
    ∀ (inp : List (tile × List (Nat × Int))) (c0 : Bool),
      (fec_none_tiles ext_dec acc inp c0).dropped = false →
        (fec_none_tiles ext_dec acc inp c0).tiles = inp.map Prod.fst ∧
        ((fec_none_tiles ext_dec acc inp c0).is_corrupted = true ↔
          c0 = true ∨ ∃ pr ∈ inp, pr.1.data_len ≠ sum_map pr.2) := by
  intro inp
  induction inp with
  | nil => intro c0 _; simp [fec_none_tiles]
  | cons hd rest ih =>
      intro c0 hnd
      obtain ⟨t, pl⟩ := hd
      by_cases hbad : t.data_len ≠ sum_map pl
      · by_cases hea : (ext_dec && !acc) = true
        · exact absurd hnd (by simp [fec_none_tiles, hbad, hea])
        · simp only [fec_none_tiles, if_pos hbad, if_neg hea] at hnd ⊢
          obtain ⟨ht, hc⟩ := ih true hnd
          refine ⟨by simp [ht], ?_⟩
          rw [hc]
          simp [hbad]
      · simp only [fec_none_tiles, if_neg hbad] at hnd ⊢
        obtain ⟨ht, hc⟩ := ih c0 hnd
        refine ⟨by simp [ht], ?_⟩
        rw [hc]
        push_neg at hbad
        simp [hbad]

/-- A dropped no-FEC pass is corrupted, aliases the tiles up to and
including the first incomplete one, and leaves the remaining nofec tiles
at their `vf_alloc` defaults. -/
theorem fec_none_dropped_shape (ext_dec acc : Bool) :
    ∀ (inp : List (tile × List (Nat × Int))) (c0 : Bool),
      (fec_none_tiles ext_dec acc inp c0).dropped = true →
        (fec_none_tiles ext_dec acc inp c0).is_corrupted = true ∧
        (fec_none_tiles ext_dec acc inp c0).tiles =
          (inp.take ((inp.takeWhile (fun pr => pr.1.data_len == sum_map pr.2)).length + 1)).map
              Prod.fst ++
            List.replicate
              (inp.length -
                ((inp.takeWhile (fun pr => pr.1.data_len == sum_map pr.2)).length + 1))
              default := by
  intro inp
  induction inp with
  | nil => intro c0 hd; simp [fec_none_tiles] at hd
  | cons hd rest ih =>
      intro c0 hdr
      obtain ⟨t, pl⟩ := hd
      by_cases hbad : t.data_len ≠ sum_map pl
      · by_cases hea : (ext_dec && !acc) = true
        · have hpred : (t.data_len == sum_map pl) = false := beq_eq_false_iff_ne.mpr hbad
          refine ⟨by simp [fec_none_tiles, hbad, hea], ?_⟩
          simp [fec_none_tiles, hbad, hea, hpred, List.takeWhile_cons]
        · simp only [fec_none_tiles, if_pos hbad, if_neg hea] at hdr ⊢
          have hdrop : (fec_none_tiles ext_dec acc rest true).dropped = true := hdr
          rw [fec_none_dropped_iff] at hdrop
          exact absurd (by simp [hdrop.1, hdrop.2.1]) hea
      · simp only [fec_none_tiles, if_neg hbad] at hdr ⊢
        obtain ⟨hc, ht⟩ := ih c0 hdr
        have hpred : (t.data_len == sum_map pl) = true := by
          simpa using not_not.mp hbad
        refine ⟨hc, ?_⟩
        simp only [List.takeWhile_cons, hpred, if_pos rfl, List.length_cons,
          List.take_succ_cons, List.map_cons, List.cons_append, Nat.succ_sub_succ]
        exact congrArg (t :: ·) ht

/-- C7 (amended): in the no-FEC branch of the FEC stage, the message is
withheld from the decompress queue iff some tile's recorded bytes differ
from (not only undershoot) its declared length while the decoder is
external and rejects corrupted frames; when not withheld, every nofec
tile aliases the received tile's pointer and length and the corruption
flag is set iff some tile differs; when withheld, the tiles up to and
including the first differing one alias and the rest keep their
`vf_alloc` defaults. -/
theorem C7_nofec_alias_and_drop (ext_dec acc : Bool)
    (inp : List (tile × List (Nat × Int))) (c0 : Bool) :
    ((fec_none_tiles ext_dec acc inp c0).dropped = true ↔
      ext_dec = true ∧ acc = false ∧ ∃ pr ∈ inp, pr.1.data_len ≠ sum_map pr.2) ∧
    ((fec_none_tiles ext_dec acc inp c0).dropped = false →
      (fec_none_tiles ext_dec acc inp c0).tiles = inp.map Prod.fst ∧
      ((fec_none_tiles ext_dec acc inp c0).is_corrupted = true ↔
        c0 = true ∨ ∃ pr ∈ inp, pr.1.data_len ≠ sum_map pr.2)) ∧
    ((fec_none_tiles ext_dec acc inp c0).dropped = true →
      (fec_none_tiles ext_dec acc inp c0).is_corrupted = true ∧
      (fec_none_tiles ext_dec acc inp c0).tiles =
        (inp.take ((inp.takeWhile (fun pr => pr.1.data_len == sum_map pr.2)).length + 1)).map
            Prod.fst ++
          List.replicate
            (inp.length -
              ((inp.takeWhile (fun pr => pr.1.data_len == sum_map pr.2)).length + 1))
            default) :=
  ⟨fec_none_dropped_iff ext_dec acc inp c0, fec_none_not_dropped ext_dec acc inp c0,
    fec_none_dropped_shape ext_dec acc inp c0⟩

/-- C7 (witness): on `c7_input` under an external decoder rejecting
corrupted frames, the pass drops the message at the first (over-length)
tile. -/
theorem C7_nofec_alias_and_drop_witness :
    (fec_none_tiles true false c7_input false).dropped = true ↔
      true = true ∧ false = false ∧ ∃ pr ∈ c7_input, pr.1.data_len ≠ sum_map pr.2 :=
  (C7_nofec_alias_and_drop true false c7_input false).1

/-- Identity lookup of `choose_codec_and_decoder`: when the source codec
is native and not DXT-excepted, the scan finds the source codec itself. -/
theorem find_identity_eq_some (native : List codec_t) (vm : video_mode_t) (cs : codec_t)
    (h1 : cs ∈ native) (h2 : dxt_exception cs vm = false) :
    native.find? (fun oc => cs == oc && !(dxt_exception oc vm)) = some cs := by
  cases hf : native.find? (fun oc => cs == oc && !(dxt_exception oc vm)) with
  | none =>
      exfalso
      have hnone := List.find?_eq_none.mp hf cs h1
      simp [h2] at hnone
  | some a =>
      have hp := List.find?_some hf
      obtain ⟨he, -⟩ : cs = a ∧ dxt_exception a vm = false := by simpa using hp
      rw [he]

/-- Identity lookup of `choose_codec_and_decoder`: when the source codec
is not native (or is DXT-excepted), the scan fails. -/
theorem find_identity_eq_none (native : List codec_t) (vm : video_mode_t) (cs : codec_t)
    (h : ¬(cs ∈ native ∧ dxt_exception cs vm = false)) :
    native.find? (fun oc => cs == oc && !(dxt_exception oc vm)) = none := by
  cases hf : native.find? (fun oc => cs == oc && !(dxt_exception oc vm)) with
  | none => rfl
  | some a =>
      exfalso
      have hp := List.find?_some hf
      have hm := List.mem_of_find?_eq_some hf
      obtain ⟨he, hd⟩ : cs = a ∧ dxt_exception a vm = false := by simpa using hp
      exact h ⟨he ▸ hm, he ▸ hd⟩

/-- C4: `choose_codec_and_decoder` tries identity (skipping DXT identity
outside normal video mode), then fast line decoders, then slow line
decoders, then external decompressors, each phase scanning the native
list in order and the first match winning; it returns `VIDEO_CODEC_NONE`
(decoder type unset) iff no phase matches.  In particular, for a display
advertising `[A, B, C]` with a source supporting identity to B and line
decoding to C, it selects B. -/
theorem C4_codec_selection_priority (native : List codec_t) (vm : video_mode_t)
    (reg : codec_t → codec_t → Bool → Bool) (ext_ok : codec_t → codec_t → Bool)
    (cs : codec_t) :
    (cs ∈ native → dxt_exception cs vm = false →
      choose_codec_and_decoder native vm reg ext_ok cs =
        ⟨cs, LINE_DECODER,
          some (if cs == codec_t.RGBA then decoder_fn.vc_copylineRGBA
            else if cs == codec_t.RGB then decoder_fn.vc_copylineRGB
            else decoder_fn.memcpy_fn)⟩) ∧
    (¬(cs ∈ native ∧ dxt_exception cs vm = false) →
      ∀ nc, native.find? (fun n => reg cs n false) = some nc →
        choose_codec_and_decoder native vm reg ext_ok cs =
          ⟨nc, LINE_DECODER, some (decoder_fn.registry cs nc false)⟩) ∧
    (¬(cs ∈ native ∧ dxt_exception cs vm = false) →
      (¬∃ n ∈ native, reg cs n false = true) →
      ∀ nc, native.find? (fun n => reg cs n true) = some nc →
        choose_codec_and_decoder native vm reg ext_ok cs =
          ⟨nc, LINE_DECODER, some (decoder_fn.registry cs nc true)⟩) ∧
    (¬(cs ∈ native ∧ dxt_exception cs vm = false) →
      (¬∃ n ∈ native, reg cs n false = true) →
      (¬∃ n ∈ native, reg cs n true = true) →
      ∀ nc, native.find? (fun n => ext_ok cs n) = some nc →
        choose_codec_and_decoder native vm reg ext_ok cs =
          ⟨nc, EXTERNAL_DECODER, none⟩) ∧
    ((choose_codec_and_decoder native vm reg ext_ok cs).out_codec =
          codec_t.VIDEO_CODEC_NONE ∧
        (choose_codec_and_decoder native vm reg ext_ok cs).decoder_type = UNSET ↔
      ¬(cs ∈ native ∧ dxt_exception cs vm = false) ∧
        (¬∃ n ∈ native, reg cs n false = true) ∧
        (¬∃ n ∈ native, reg cs n true = true) ∧
        (¬∃ n ∈ native, ext_ok cs n = true)) ∧
    choose_codec_and_decoder [codec_t.OTHER 0, codec_t.UYVY, codec_t.RGB] VIDEO_NORMAL
        (fun s d _ => s == codec_t.UYVY && d == codec_t.RGB) (fun _ _ => false)
        codec_t.UYVY =
      ⟨codec_t.UYVY, LINE_DECODER, some decoder_fn.memcpy_fn⟩ := by
  have hident : ∀ (h1 : cs ∈ native) (h2 : dxt_exception cs vm = false),
      choose_codec_and_decoder native vm reg ext_ok cs =
        ⟨cs, LINE_DECODER,
          some (if cs == codec_t.RGBA then decoder_fn.vc_copylineRGBA
            else if cs == codec_t.RGB then decoder_fn.vc_copylineRGB
            else decoder_fn.memcpy_fn)⟩ := by
    intro h1 h2
    simp only [choose_codec_and_decoder, find_identity_eq_some native vm cs h1 h2]
  have hfast : ∀ (_ : ¬(cs ∈ native ∧ dxt_exception cs vm = false)) (nc : codec_t),
      native.find? (fun n => reg cs n false) = some nc →
        choose_codec_and_decoder native vm reg ext_ok cs =
          ⟨nc, LINE_DECODER, some (decoder_fn.registry cs nc false)⟩ := by
    intro h nc hf
    simp only [choose_codec_and_decoder, find_identity_eq_none native vm cs h, hf]
  have hslow : ∀ (_ : ¬(cs ∈ native ∧ dxt_exception cs vm = false))
      (_ : ¬∃ n ∈ native, reg cs n false = true) (nc : codec_t),
      native.find? (fun n => reg cs n true) = some nc →
        choose_codec_and_decoder native vm reg ext_ok cs =
          ⟨nc, LINE_DECODER, some (decoder_fn.registry cs nc true)⟩ := by
    intro h hnf nc hf
    have h1 : native.find? (fun n => reg cs n false) = none :=
      List.find?_eq_none.mpr fun x hx hpx => hnf ⟨x, hx, hpx⟩
    simp only [choose_codec_and_decoder, find_identity_eq_none native vm cs h, h1, hf]
  have hext : ∀ (_ : ¬(cs ∈ native ∧ dxt_exception cs vm = false))
      (_ : ¬∃ n ∈ native, reg cs n false = true)
      (_ : ¬∃ n ∈ native, reg cs n true = true) (nc : codec_t),
      native.find? (fun n => ext_ok cs n) = some nc →
        choose_codec_and_decoder native vm reg ext_ok cs =
          ⟨nc, EXTERNAL_DECODER, none⟩ := by
    intro h hnf hns nc hf
    have h1 : native.find? (fun n => reg cs n false) = none :=
      List.find?_eq_none.mpr fun x hx hpx => hnf ⟨x, hx, hpx⟩
    have h2 : native.find? (fun n => reg cs n true) = none :=
      List.find?_eq_none.mpr fun x hx hpx => hns ⟨x, hx, hpx⟩
    simp only [choose_codec_and_decoder, find_identity_eq_none native vm cs h, h1, h2, hf]
  refine ⟨hident, hfast, hslow, hext, ?_, by decide⟩
  constructor
  · rintro ⟨hoc, hut⟩
    by_cases hid : cs ∈ native ∧ dxt_exception cs vm = false
    · rw [hident hid.1 hid.2] at hut; cases hut
    · refine ⟨hid, ?_, ?_, ?_⟩
      · intro hex
        have hsome : (native.find? (fun n => reg cs n false)).isSome =
            true := List.find?_isSome.mpr (by simpa using hex)
        obtain ⟨nc, hnc⟩ := Option.isSome_iff_exists.mp hsome
        rw [hfast hid nc hnc] at hut; cases hut
      · intro hex
        by_cases hexf : ∃ n ∈ native, reg cs n false = true
        · have hsome : (native.find? (fun n => reg cs n false)).isSome =
              true := List.find?_isSome.mpr (by simpa using hexf)
          obtain ⟨nc, hnc⟩ := Option.isSome_iff_exists.mp hsome
          rw [hfast hid nc hnc] at hut; cases hut
        · have hsome : (native.find? (fun n => reg cs n true)).isSome =
              true := List.find?_isSome.mpr (by simpa using hex)
          obtain ⟨nc, hnc⟩ := Option.isSome_iff_exists.mp hsome
          rw [hslow hid hexf nc hnc] at hut; cases hut
      · intro hex
        by_cases hexf : ∃ n ∈ native, reg cs n false = true
        · have hsome : (native.find? (fun n => reg cs n false)).isSome =
              true := List.find?_isSome.mpr (by simpa using hexf)
          obtain ⟨nc, hnc⟩ := Option.isSome_iff_exists.mp hsome
          rw [hfast hid nc hnc] at hut; cases hut
        · by_cases hexs : ∃ n ∈ native, reg cs n true = true
          · have hsome : (native.find? (fun n => reg cs n true)).isSome =
                true := List.find?_isSome.mpr (by simpa using hexs)
            obtain ⟨nc, hnc⟩ := Option.isSome_iff_exists.mp hsome
            rw [hslow hid hexf nc hnc] at hut; cases hut
          · have hsome : (native.find? (fun n => ext_ok cs n)).isSome =
                true := List.find?_isSome.mpr (by simpa using hex)
            obtain ⟨nc, hnc⟩ := Option.isSome_iff_exists.mp hsome
            rw [hext hid hexf hexs nc hnc] at hut; cases hut
  · rintro ⟨hid, hnf, hns, hne⟩
    have h1 : native.find? (fun n => reg cs n false) = none :=
      List.find?_eq_none.mpr fun x hx hpx => hnf ⟨x, hx, hpx⟩
    have h2 : native.find? (fun n => reg cs n true) = none :=
      List.find?_eq_none.mpr fun x hx hpx => hns ⟨x, hx, hpx⟩
    have h3 : native.find? (fun n => ext_ok cs n) = none :=
      List.find?_eq_none.mpr fun x hx hpx => hne ⟨x, hx, hpx⟩
    simp [choose_codec_and_decoder, find_identity_eq_none native vm cs hid, h1, h2, h3]

/-- C4 (witness): identity selection on a display whose native list holds
the source codec. -/
theorem C4_codec_selection_priority_witness :
    choose_codec_and_decoder [codec_t.UYVY] VIDEO_NORMAL (fun _ _ _ => false)
        (fun _ _ => false) codec_t.UYVY =
      ⟨codec_t.UYVY, LINE_DECODER,
        some (if codec_t.UYVY == codec_t.RGBA then decoder_fn.vc_copylineRGBA
          else if codec_t.UYVY == codec_t.RGB then decoder_fn.vc_copylineRGB
          else decoder_fn.memcpy_fn)⟩ :=
  (C4_codec_selection_priority [codec_t.UYVY] VIDEO_NORMAL (fun _ _ _ => false)
    (fun _ _ => false) codec_t.UYVY).1 (by decide) (by decide)

/-- With no remaining payload the write loop does nothing. -/
theorem line_decode_loop_nonpos (ld : line_decoder) (dlen : Int) :
    ∀ (fuel : Nat) (len s_x d_x y prints : Int), len ≤ 0 →
      line_decode_loop ld dlen fuel len s_x d_x y prints = ⟨[], prints, false, false⟩ := by
  intro fuel len s_x d_x y prints hlen
  cases fuel with
  | zero => rfl
  | succ n => rw [line_decode_loop, if_neg (not_lt.mpr hlen)]

/-- C5: in the receiver's line-decoder loop, every `decode_line` call
satisfies the bound `l + base_offset + offset ≤ tile->data_len`; when no
overflow occurs `prints` is untouched and no warning is logged; when the
bound would be exceeded the remainder of the packet is discarded after
exactly one `prints` increment, with the warning logged iff this is a
100th occurrence (`prints % 100 == 0`). -/
theorem C5_line_decoder_write_bound (ld : line_decoder) (tile_data_len : Int) :
    ∀ (fuel : Nat) (len s_x d_x y prints : Int),
      (∀ c ∈ (line_decode_loop ld tile_data_len fuel len s_x d_x y prints).calls,
        c.len + c.dst_off ≤ tile_data_len) ∧
      ((line_decode_loop ld tile_data_len fuel len s_x d_x y prints).discarded = false →
        (line_decode_loop ld tile_data_len fuel len s_x d_x y prints).prints = prints ∧
        (line_decode_loop ld tile_data_len fuel len s_x d_x y prints).warned = false) ∧
      ((line_decode_loop ld tile_data_len fuel len s_x d_x y prints).discarded = true →
        (line_decode_loop ld tile_data_len fuel len s_x d_x y prints).prints = prints + 1 ∧
        ((line_decode_loop ld tile_data_len fuel len s_x d_x y prints).warned = true ↔
          prints % 100 = 0)) := by
  intro fuel
  induction fuel with
  | zero =>
      intro len s_x d_x y prints
      refine ⟨by simp [line_decode_loop], by simp [line_decode_loop], ?_⟩
      intro hdis
      simp [line_decode_loop] at hdis
  | succ n ih =>
      intro len s_x d_x y prints
      by_cases hlen : len > 0
      · rw [line_decode_loop, if_pos hlen]
        dsimp only
        generalize hL : (if converted_len ld.src_bpp ld.dst_bpp len + d_x > ld.dst_linesize
          then ld.dst_linesize - d_x else converted_len ld.src_bpp ld.dst_bpp len) = l
        by_cases hg : l + ld.base_offset + (y + d_x) ≤ tile_data_len
        · rw [if_pos hg]
          obtain ⟨ihb, ihnd, ihd⟩ :=
            ih (len - (ld.src_linesize - s_x)) 0 0 (y + ld.dst_pitch) prints
          refine ⟨?_, ?_, ?_⟩
          · intro c hc
            rcases List.mem_cons.mp hc with rfl | hc
            · dsimp only
              omega
            · exact ihb c hc
          · intro hnd
            exact ihnd hnd
          · intro hdis
            exact ihd hdis
        · rw [if_neg hg]
          rw [line_decode_loop_nonpos ld tile_data_len n 0 0 0 (y + ld.dst_pitch)
            (prints + 1) le_rfl]
          refine ⟨by simp, by simp, ?_⟩
          intro _
          refine ⟨rfl, ?_⟩
          simp [beq_iff_eq]
      · rw [line_decode_loop, if_neg hlen]
        refine ⟨by simp, by simp, ?_⟩
        intro hdis
        simp at hdis

/-- From a line-start state (`s_x = d_x = 0`) the write loop issues its
`i`-th call at destination offset `base_offset + y + i * dst_pitch` and
never exceeds `dst_linesize`. -/
theorem line_decode_loop_norm_calls (ld : line_decoder) (dlen : Int) :
    ∀ (fuel : Nat) (len y prints : Int),
      (∀ (i : Nat) (c : decode_call),
        (line_decode_loop ld dlen fuel len 0 0 y prints).calls.get? i = some c →
        c.dst_off = ld.base_offset + y + (i : Int) * ld.dst_pitch) ∧
      (∀ c ∈ (line_decode_loop ld dlen fuel len 0 0 y prints).calls,
        c.len ≤ ld.dst_linesize) := by
  intro fuel
  induction fuel with
  | zero => intro len y prints; simp [line_decode_loop]
  | succ n ih =>
      intro len y prints
      by_cases hlen : len > 0
      · rw [line_decode_loop, if_pos hlen]
        dsimp only
        have hl_le : (if converted_len ld.src_bpp ld.dst_bpp len + 0 > ld.dst_linesize
            then ld.dst_linesize - 0 else converted_len ld.src_bpp ld.dst_bpp len) ≤
            ld.dst_linesize := by
          split <;> omega
        generalize hL : (if converted_len ld.src_bpp ld.dst_bpp len + 0 > ld.dst_linesize
          then ld.dst_linesize - 0 else converted_len ld.src_bpp ld.dst_bpp len) = l at hl_le
        by_cases hg : l + ld.base_offset + (y + 0) ≤ dlen
        · rw [if_pos hg]
          obtain ⟨ihoff, ihlen⟩ := ih (len - (ld.src_linesize - 0)) (y + ld.dst_pitch) prints
          constructor
          · intro i c hc
            cases i with
            | zero =>
                simp only [List.get?_cons_zero, Option.some.injEq] at hc
                rw [← hc]
                push_cast
                ring
            | succ j =>
                simp only [List.get?_cons_succ] at hc
                rw [ihoff j c hc]
                push_cast
                ring
          · intro c hc
            rcases List.mem_cons.mp hc with rfl | hc
            · simpa using hl_le
            · exact ihlen c hc
        · rw [if_neg hg]
          rw [line_decode_loop_nonpos ld dlen n 0 0 0 (y + ld.dst_pitch) (prints + 1) le_rfl]
          simp
      · rw [line_decode_loop, if_neg hlen]
        simp

/-- C6: for a line-decoder packet starting at byte offset `data_pos`,
the first `decode_line` call lands at vertical offset
`(data_pos / src_linesize) * dst_pitch` plus the initial horizontal
destination offset `initial_d_x` computed from
`s_x = data_pos mod src_linesize`; every subsequent call starts a new
line (`s_x`, `d_x` reset to zero) exactly `dst_pitch` further down; and
every call's converted length is clipped to at most `dst_linesize`. -/
theorem C6_line_decoder_positions (ld : line_decoder) (dlen data_pos len prints : Int)
    (hsl : 0 < ld.src_linesize) (hsb : (0 : ℚ) < ld.src_bpp)
    (hdb : (0 : ℚ) < ld.dst_bpp) :
    (∀ (i : Nat) (c : decode_call),
      (line_decode_packet ld dlen data_pos len prints).calls.get? i = some c →
      c.dst_off = ld.base_offset + (data_pos / ld.src_linesize) * ld.dst_pitch +
        (i : Int) * ld.dst_pitch +
        (if i = 0 then initial_d_x ld (data_pos % ld.src_linesize) else 0)) ∧
    (∀ c ∈ (line_decode_packet ld dlen data_pos len prints).calls,
      c.len ≤ ld.dst_linesize) := by
  have hs_x : (0 : Int) ≤ data_pos % ld.src_linesize :=
    Int.emod_nonneg data_pos (ne_of_gt hsl)
  have hdx0 : 0 ≤ initial_d_x ld (data_pos % ld.src_linesize) := by
    unfold initial_d_x
    have h1 : (0 : ℚ) ≤ ((data_pos % ld.src_linesize : Int) : ℚ) / ld.src_bpp :=
      div_nonneg (by exact_mod_cast hs_x) hsb.le
    have h2 : (0 : Int) ≤ ⌊((data_pos % ld.src_linesize : Int) : ℚ) / ld.src_bpp⌋ :=
      Int.floor_nonneg.mpr h1
    exact Int.floor_nonneg.mpr (mul_nonneg (by exact_mod_cast h2) hdb.le)
  by_cases hlen : len > 0
  · obtain ⟨n, hn⟩ : ∃ n, len.toNat = n + 1 := ⟨len.toNat - 1, by omega⟩
    unfold line_decode_packet
    dsimp only
    rw [hn, line_decode_loop, if_pos hlen]
    dsimp only
    have hl_le : (if converted_len ld.src_bpp ld.dst_bpp len +
          initial_d_x ld (data_pos % ld.src_linesize) > ld.dst_linesize
        then ld.dst_linesize - initial_d_x ld (data_pos % ld.src_linesize)
        else converted_len ld.src_bpp ld.dst_bpp len) ≤ ld.dst_linesize := by
      split <;> omega
    generalize hL : (if converted_len ld.src_bpp ld.dst_bpp len +
        initial_d_x ld (data_pos % ld.src_linesize) > ld.dst_linesize
      then ld.dst_linesize - initial_d_x ld (data_pos % ld.src_linesize)
      else converted_len ld.src_bpp ld.dst_bpp len) = l at hl_le
    by_cases hg : l + ld.base_offset +
        ((data_pos / ld.src_linesize) * ld.dst_pitch +
          initial_d_x ld (data_pos % ld.src_linesize)) ≤ dlen
    · rw [if_pos hg]
      obtain ⟨ihoff, ihlen⟩ := line_decode_loop_norm_calls ld dlen n
        (len - (ld.src_linesize - data_pos % ld.src_linesize))
        ((data_pos / ld.src_linesize) * ld.dst_pitch + ld.dst_pitch) prints
      constructor
      · intro i c hc
        cases i with
        | zero =>
            simp only [List.get?_cons_zero, Option.some.injEq] at hc
            rw [← hc]
            simp
            omega
        | succ j =>
            simp only [List.get?_cons_succ] at hc
            rw [ihoff j c hc]
            simp only [Nat.succ_ne_zero, if_neg, Nat.cast_succ]
            push_cast
            ring
      · intro c hc
        rcases List.mem_cons.mp hc with rfl | hc
        · simpa using hl_le
        · exact ihlen c hc
    · rw [if_neg hg]
      rw [line_decode_loop_nonpos ld dlen n 0 0 0
        ((data_pos / ld.src_linesize) * ld.dst_pitch + ld.dst_pitch) (prints + 1) le_rfl]
      simp
  · have h0 : len.toNat = 0 := Int.toNat_eq_zero.mpr (not_lt.mp hlen)
    unfold line_decode_packet
    dsimp only
    rw [h0]
    simp [line_decode_loop]

/-- C5 (witness): instance of the write-bound theorem on a small
identity-bpp configuration. -/
theorem C5_line_decoder_write_bound_witness :
    (∀ c ∈ (line_decode_loop ⟨0, 1, 1, 10, 10, 10⟩ 1000 3 4 0 0 0 0).calls,
      c.len + c.dst_off ≤ 1000) ∧
    ((line_decode_loop ⟨0, 1, 1, 10, 10, 10⟩ 1000 3 4 0 0 0 0).discarded = false →
      (line_decode_loop ⟨0, 1, 1, 10, 10, 10⟩ 1000 3 4 0 0 0 0).prints = 0 ∧
      (line_decode_loop ⟨0, 1, 1, 10, 10, 10⟩ 1000 3 4 0 0 0 0).warned = false) ∧
    ((line_decode_loop ⟨0, 1, 1, 10, 10, 10⟩ 1000 3 4 0 0 0 0).discarded = true →
      (line_decode_loop ⟨0, 1, 1, 10, 10, 10⟩ 1000 3 4 0 0 0 0).prints = 0 + 1 ∧
      ((line_decode_loop ⟨0, 1, 1, 10, 10, 10⟩ 1000 3 4 0 0 0 0).warned = true ↔
        (0 : Int) % 100 = 0)) :=
  C5_line_decoder_write_bound ⟨0, 1, 1, 10, 10, 10⟩ 1000 3 4 0 0 0 0

/-- C6 (witness): instance of the position theorem on a UYVY-like
configuration (2 bytes per pixel, 10-byte lines, 12-byte pitch) for a
packet starting at byte 25. -/
theorem C6_line_decoder_positions_witness :
    (∀ (i : Nat) (c : decode_call),
      (line_decode_packet ⟨0, 2, 2, 10, 12, 10⟩ 1000 25 15 0).calls.get? i = some c →
      c.dst_off = (0 : Int) + ((25 : Int) / 10) * 12 + (i : Int) * 12 +
        (if i = 0 then initial_d_x ⟨0, 2, 2, 10, 12, 10⟩ ((25 : Int) % 10) else 0)) ∧
    (∀ c ∈ (line_decode_packet ⟨0, 2, 2, 10, 12, 10⟩ 1000 25 15 0).calls,
      c.len ≤ (10 : Int)) :=
  C6_line_decoder_positions ⟨0, 2, 2, 10, 12, 10⟩ 1000 25 15 0 (by decide) (by decide)
    (by decide)

end UltraGrid
